import Mathlib

/-!
Verification of the conversational orchestration core of the
Group_37_HackIreland personal task assistant.

The development shallowly embeds the orchestration logic of
`Agent/src/agent.py`, the task-store helpers of `Agent/src/database.py`
and the profile reconciler of `Agent/src/profile_manager.py`.

Text is modelled as `List Char`.  The concrete regular expressions used by
the source (`_is_action_directive`, `_extract_actions`) are deterministic
for their pattern shapes, so they are embedded as straight-line matchers:
each pattern element (`\w+`, `\d+`, `[^\]]*`, literal text) is compiled to
a maximal-munch step.  This is faithful because none of the character
classes involved can match the delimiter that follows them, hence the
backtracking of Python's `re` engine never changes the outcome.
-/

namespace Orchestration

/-- Text is modelled as a list of characters. -/
abbrev Str := List Char

/-- Word characters of the `re` class `\w` (ASCII range; directive kinds in
this code base are plain ASCII identifiers). -/
def isWordChar (c : Char) : Bool := c.isAlphanum || c = '_'

/-- Match a literal piece of a regular expression: if `lit` is a prefix of
`s`, return the remainder of `s`. -/
def expectLit : Str → Str → Option Str
  | [], s => some s
  | _, [] => none
  | l :: ls, c :: cs => if c = l then expectLit ls cs else none

/-- Maximal munch of a character class: the longest prefix of characters
satisfying `p`, together with the rest. -/
def munch (p : Char → Bool) : Str → Str × Str
  | [] => ([], [])
  | c :: cs =>
    if p c then
      let r := munch p cs
      (c :: r.1, r.2)
    else ([], c :: cs)

/-- Maximal munch requiring at least one character (`+` quantifier). -/
def munch1 (p : Char → Bool) (s : Str) : Option (Str × Str) :=
  match munch p s with
  | ([], _) => none
  | (a, r) => some (a, r)

/-- Characters allowed by the `re` class `[^\]]`. -/
def notRB (c : Char) : Bool := c != ']'

/-- Characters allowed by the `re` class `[^\]:]`. -/
def notRBColon (c : Char) : Bool := !(c == ']' || c == ':')

/-- Prefix matcher for `\[ACTION:(\w+):(\d+):([^\]]*)\]` (the numeric-id
directive pattern of `_is_action_directive` / `_extract_actions`).
Returns the three captured groups and the unconsumed rest. -/
def matchP1 (s : Str) : Option ((Str × Str × Str) × Str) :=
  match expectLit "[ACTION:".data s with
  | none => none
  | some s1 =>
  match munch1 isWordChar s1 with
  | none => none
  | some (kind, s2) =>
  match expectLit ":".data s2 with
  | none => none
  | some s3 =>
  match munch1 (fun c => c.isDigit) s3 with
  | none => none
  | some (digits, s4) =>
  match expectLit ":".data s4 with
  | none => none
  | some s5 =>
  match munch notRB s5 with
  | (payload, s6) =>
  match expectLit "]".data s6 with
  | none => none
  | some s7 => some ((kind, digits, payload), s7)

/-- Prefix matcher for `\[ACTION:(\w+):task_id:([^\]:]+):([^\]]*)\]`. -/
def matchP2 (s : Str) : Option ((Str × Str × Str) × Str) :=
  match expectLit "[ACTION:".data s with
  | none => none
  | some s1 =>
  match munch1 isWordChar s1 with
  | none => none
  | some (kind, s2) =>
  match expectLit ":task_id:".data s2 with
  | none => none
  | some s3 =>
  match munch1 notRBColon s3 with
  | none => none
  | some (field, s4) =>
  match expectLit ":".data s4 with
  | none => none
  | some s5 =>
  match munch notRB s5 with
  | (payload, s6) =>
  match expectLit "]".data s6 with
  | none => none
  | some s7 => some ((kind, field, payload), s7)

/-- Prefix matcher for `\[ACTION:(\w+):task_id:([^\]]*)\]`. -/
def matchP3 (s : Str) : Option ((Str × Str) × Str) :=
  match expectLit "[ACTION:".data s with
  | none => none
  | some s1 =>
  match munch1 isWordChar s1 with
  | none => none
  | some (kind, s2) =>
  match expectLit ":task_id:".data s2 with
  | none => none
  | some s3 =>
  match munch notRB s3 with
  | (payload, s4) =>
  match expectLit "]".data s4 with
  | none => none
  | some s5 => some ((kind, payload), s5)

/-- Prefix matcher for `\[ACTION:create_task:([^\]]*)\]`. -/
def matchCreate (s : Str) : Option (Str × Str) :=
  match expectLit "[ACTION:create_task:".data s with
  | none => none
  | some s1 =>
  match munch notRB s1 with
  | (payload, s2) =>
  match expectLit "]".data s2 with
  | none => none
  | some s3 => some (payload, s3)

/-- Prefix matcher for `\[ACTION:profile:(\w+):([^\]]*)\]`. -/
def matchProfile (s : Str) : Option ((Str × Str) × Str) :=
  match expectLit "[ACTION:profile:".data s with
  | none => none
  | some s1 =>
  match munch1 isWordChar s1 with
  | none => none
  | some (subtype, s2) =>
  match expectLit ":".data s2 with
  | none => none
  | some s3 =>
  match munch notRB s3 with
  | (payload, s4) =>
  match expectLit "]".data s4 with
  | none => none
  | some s5 => some ((subtype, payload), s5)

/-- The `AIAgent._is_action_directive` (agent.py lines 822-843): the text starts
with an open bracket and one of the three task patterns or the profile
pattern matches a prefix of it.  Python `re.match` anchors at the start of
the text but does not require consuming all of it. -/
def is_action_directive (text : Str) : Bool :=
  match text with
  | '[' :: _ =>
    (matchP1 text).isSome || (matchP2 text).isSome || (matchP3 text).isSome ||
      (matchProfile text).isSome
  | _ => false

/-- Does an anchored pattern match consume the whole text? -/
def fullMatch {α : Type} (m : Option (α × Str)) : Bool :=
  match m with
  | some (_, []) => true
  | _ => false

/-- Modelled from the spec (section 6, Directive Grammar): `text` is a
complete, grammar-matching directive when one of the five directive patterns
matches the whole of it.  This is the spec-side notion used to compare
against the source's prefix-based `_is_action_directive`. -/
def is_complete_directive (text : Str) : Bool :=
  fullMatch (matchP1 text) || fullMatch (matchP2 text) ||
    fullMatch (matchP3 text) || fullMatch (matchCreate text) ||
    fullMatch (matchProfile text)

/-- Modelled from the spec (section 6): try the five directive patterns of
the Directive Grammar at the current position; on success return the rest of
the text after the matched directive. -/
def matchAnyGrammar (s : Str) : Option Str :=
  match matchP1 s with
  | some r => some r.2
  | none =>
  match matchP2 s with
  | some r => some r.2
  | none =>
  match matchP3 s with
  | some r => some r.2
  | none =>
  match matchCreate s with
  | some r => some r.2
  | none =>
  match matchProfile s with
  | some r => some r.2
  | none => none

/-- Left-to-right scan removing every Directive Grammar match once.  The
fuel argument only serves structural recursion; `matchAnyGrammar` strictly
shrinks its argument, so fuel `s.length` is always enough. -/
def removeDirectivesGo : Nat → Str → Str
  | 0, s => s
  | _ + 1, [] => []
  | fuel + 1, c :: cs =>
    match matchAnyGrammar (c :: cs) with
    | some rest => removeDirectivesGo fuel rest
    | none => c :: removeDirectivesGo fuel cs

/-- Modelled from the spec (testable property, section 8): the input text
minus exactly the substrings that match the Directive Grammar, scanning left
to right and removing each matching directive once. -/
def removeDirectivesSpec (s : Str) : Str :=
  removeDirectivesGo s.length s

/-- Split the buffer at the first close bracket, mirroring the slicing
`buffer[:buffer.index(chr) + 1]` / `buffer[buffer.index(chr) + 1:]` of
`handle_task_input`: the prefix up to and including the first close bracket,
and the remaining text.  `none` when the buffer has no close bracket. -/
def splitAtCloseRB : Str → Option (Str × Str)
  | [] => none
  | c :: cs =>
    if c = ']' then some ([c], cs)
    else
      match splitAtCloseRB cs with
      | some (a, b) => some (c :: a, b)
      | none => none

/-- State of the streaming loop of `AIAgent.handle_task_input` (agent.py
lines 897-936): the accumulation buffer, the list of fragments yielded so
far as visible text, and the `response` accumulator fed afterwards to
`_extract_actions`. -/
structure StreamState where
  buffer : Str
  visible : List Str
  response : Str
deriving Repr, DecidableEq

/-- One iteration of the `async for chunk in self.chatgpt.process(...)` loop
of `handle_task_input` (agent.py lines 901-929), translated statement by
statement.  Note two characteristics of the source: `buffer` is never reset
in the branch where the buffer starts with an open bracket, and the
`continue` in the still-accumulating branch skips the trailing
`response += chunk`. -/
def streamStep (st : StreamState) (chunk : Str) : StreamState :=
  let buffer := st.buffer ++ chunk
  match buffer with
  | '[' :: _ =>
    match splitAtCloseRB buffer with
    | some (potential_action, remaining_text) =>
      if is_action_directive potential_action then
        { buffer := buffer
          visible := st.visible ++
            (if remaining_text ≠ [] then [remaining_text] else [])
          response := st.response ++ potential_action ++ chunk }
      else
        { buffer := buffer
          visible := st.visible ++ [buffer]
          response := st.response ++ chunk }
    | none =>
      { buffer := buffer, visible := st.visible, response := st.response }
  | _ =>
    { buffer := []
      visible := st.visible ++ [buffer]
      response := st.response ++ chunk }

/-- The loop of `handle_task_input` folded over an entire fragment sequence,
starting from empty `response` and `buffer`. -/
def runStream (chunks : List Str) : StreamState :=
  chunks.foldl streamStep ⟨[], [], []⟩

/-- End-of-stream handling of `handle_task_input` (agent.py lines 931-936):
the residual buffer is yielded as visible text exactly when it is nonempty
and `_is_action_directive` rejects it; otherwise it is absorbed into
`response`. -/
def flushVisible (st : StreamState) : Str :=
  if st.buffer ≠ [] ∧ is_action_directive st.buffer = false then st.buffer
  else []

/-- Everything the caller sees from the streaming loop of one turn: the
concatenation of the fragments yielded during the loop followed by the
end-of-stream flush. -/
def streamVisible (chunks : List Str) : Str :=
  (runStream chunks).visible.flatten ++ flushVisible (runStream chunks)

/-! ### Task batcher (`AIAgent._chunk_tasks`, agent.py lines 284-315) -/

/-- Token-size estimate of one task record: `len(str(task)) // 4`
(agent.py line 300).  A task record is modelled by its `str(...)`
serialization. -/
def taskSize (t : Str) : Nat := t.length / 4

/-- Sum of the size estimates of the records in a batch. -/
def sizeSum (c : List Str) : Nat := (c.map taskSize).sum

/-- Default bound `MAX_EMAILS = 5` of config.py (maximum records per
batch). -/
def MAX_EMAILS : Nat := 5

/-- Default bound `MAX_TOKENS = 1000` of config.py (maximum estimated size
per batch). -/
def MAX_TOKENS : Nat := 1000

/-- Loop state of `_chunk_tasks`: batches emitted so far, the batch under
construction, and its accumulated size estimate. -/
structure ChunkState where
  chunks : List (List Str)
  current_chunk : List Str
  current_size : Nat
deriving Repr, DecidableEq

/-- One iteration of the `for task in tasks` loop of `_chunk_tasks`
(agent.py lines 298-310). -/
def chunkStep (maxEmails maxTokens : Nat) (st : ChunkState) (task : Str) :
    ChunkState :=
  if maxEmails ≤ st.current_chunk.length ∨
      maxTokens < st.current_size + taskSize task then
    { chunks :=
        if st.current_chunk = [] then st.chunks
        else st.chunks ++ [st.current_chunk]
      current_chunk := [task]
      current_size := taskSize task }
  else
    { chunks := st.chunks
      current_chunk := st.current_chunk ++ [task]
      current_size := st.current_size + taskSize task }

/-- Closing step of `_chunk_tasks` (agent.py lines 312-313): append the last
batch when it is non-empty. -/
def closeChunks (st : ChunkState) : List (List Str) :=
  if st.current_chunk = [] then st.chunks else st.chunks ++ [st.current_chunk]

/-- The `AIAgent._chunk_tasks`: greedy batching of an ordered record list under
a record-count bound and a size-estimate bound, closing the final non-empty
batch. -/
def chunk_tasks (maxEmails maxTokens : Nat) (tasks : List Str) :
    List (List Str) :=
  closeChunks (tasks.foldl (chunkStep maxEmails maxTokens) ⟨[], [], 0⟩)

/-- A well-formed batch: at most `maxEmails` records, and the size estimate
within `maxTokens` unless the batch is a single oversized record. -/
def GoodBatch (maxEmails maxTokens : Nat) (c : List Str) : Prop :=
  c.length ≤ maxEmails ∧
    (sizeSum c ≤ maxTokens ∨ ∃ t, c = [t] ∧ maxTokens < taskSize t)

/-- Invariant carried by the `_chunk_tasks` loop. -/
def ChunkInv (maxEmails maxTokens : Nat) (st : ChunkState) : Prop :=
  (∀ c ∈ st.chunks, GoodBatch maxEmails maxTokens c) ∧
    GoodBatch maxEmails maxTokens st.current_chunk ∧
    st.current_size = sizeSum st.current_chunk

/-- The records held by a loop state, in order. -/
def flattenState (st : ChunkState) : List Str :=
  st.chunks.flatten ++ st.current_chunk

/-! ### Task store (`Agent/src/database.py`) and dispatcher branches -/

/-- Decimal digit character. -/
def digitChar (n : Nat) : Char := Char.ofNat (48 + n)

/-- Decimal rendering of a natural number (fuel-driven so it reduces in the
kernel). -/
def natToStrGo : Nat → Nat → Str
  | 0, _ => []
  | fuel + 1, n =>
    if n < 10 then [digitChar n]
    else natToStrGo fuel (n / 10) ++ [digitChar (n % 10)]

/-- Decimal rendering of a natural number. -/
def natToStr (n : Nat) : Str := natToStrGo (n + 1) n

/-- Decimal rendering of an integer. -/
def intToStr (i : Int) : Str :=
  if i < 0 then '-' :: natToStr i.natAbs else natToStr i.toNat

/-- ASCII whitespace as treated by Python's `str.strip()` and `int(...)`. -/
def pyWs (c : Char) : Bool :=
  c = ' ' || c = '\t' || c = '\n' || c = '\r' || c = '\x0b' || c = '\x0c'

/-- Python `str.strip()` (ASCII whitespace; the payloads concerned are
ASCII). -/
def pyStrip (s : Str) : Str :=
  ((s.dropWhile pyWs).reverse.dropWhile pyWs).reverse

/-- Digit tail of a Python integer literal: base-10 digits with single
underscores allowed between digits. -/
def pyDigitsGo (acc : Nat) : Str → Option Nat
  | [] => some acc
  | '_' :: c :: cs =>
    if c.isDigit then pyDigitsGo (acc * 10 + (c.toNat - 48)) cs else none
  | '_' :: [] => none
  | c :: cs =>
    if c.isDigit then pyDigitsGo (acc * 10 + (c.toNat - 48)) cs else none

/-- Digits of a Python integer literal (at least one digit). -/
def pyDigits : Str → Option Nat
  | [] => none
  | c :: cs => if c.isDigit then pyDigitsGo (c.toNat - 48) cs else none

/-- Python `int(string)`: optional surrounding whitespace, an optional sign,
then base-10 digits (single underscores between digits allowed).  `none`
models the `ValueError`.  Unicode digits are not modelled; every string this
is applied to here is ASCII. -/
def pyIntOpt (s : Str) : Option Int :=
  match pyStrip s with
  | '+' :: rest => (pyDigits rest).map Int.ofNat
  | '-' :: rest => (pyDigits rest).map (fun n => -(Int.ofNat n))
  | rest => (pyDigits rest).map Int.ofNat

/-- Values storable in a task's `alertAt` slot.  The source stores either a
computed `datetime` (modelled as epoch seconds for `utcnow + timedelta`
results, or as parsed calendar fields for `strptime`/`fromisoformat`
results) or the literal string `next_debrief`. -/
inductive TimeVal where
  | instant (seconds : Int)
  | calendar (y mo d h mi : Nat)
  | nextDebrief
deriving Repr, DecidableEq

/-- A row of the `tasks` table (database.py lines 83-91). -/
structure Task where
  id : Nat
  description : Str
  urgency : Int
  status : Str
  alertAt : Option TimeVal
deriving Repr, DecidableEq

/-- The `tasks` table, in insertion order. -/
abbrev TaskStore := List Task

/-- The range-check error of `create_task` / `update_task_urgency`. -/
def urgencyRangeError : Str := "Urgency must be between 1 and 5".data

/-- The `get_task_by_id` (database.py lines 299-324): the row with the given
primary key. -/
def get_task_by_id (store : TaskStore) (task_id : Nat) : Option Task :=
  store.find? (fun t => t.id == task_id)

/-- The `update_task_status` (database.py lines 169-196): set `status` and
`alertAt` on the row matching the id; every other column and row is left
unchanged. -/
def update_task_status (store : TaskStore) (task_id : Nat) (status : Str)
    (alert_at : Option TimeVal) : TaskStore :=
  store.map fun t =>
    if t.id = task_id then { t with status := status, alertAt := alert_at }
    else t

/-- The `update_task_urgency` (database.py lines 198-222): urgency write guarded
by the 1..5 range check; `ValueError` is modelled as `.error`. -/
def update_task_urgency (store : TaskStore) (task_id : Nat) (urgency : Int) :
    Except Str TaskStore :=
  if 1 ≤ urgency ∧ urgency ≤ 5 then
    .ok (store.map fun t =>
      if t.id = task_id then { t with urgency := urgency } else t)
  else .error urgencyRangeError

/-- The timestamp marker `append_task_notes` inserts between the stored
description and the appended notes:
`CONCAT(description, '\n\nUpdate ', NOW(), ':\n', notes)` with `now` the
database clock rendering. -/
def updateMarker (now : Str) : Str :=
  "\n\nUpdate ".data ++ now ++ ":\n".data

/-- The `append_task_notes` (database.py lines 224-242): additive description
update on the row matching the id. -/
def append_task_notes (store : TaskStore) (task_id : Nat) (notes : Str)
    (now : Str) : TaskStore :=
  store.map fun t =>
    if t.id = task_id then
      { t with description := t.description ++ updateMarker now ++ notes }
    else t

/-- The `update_task_description` (database.py lines 244-262): full replacement
of the description (not used by the dispatcher's notes path). -/
def update_task_description (store : TaskStore) (task_id : Nat)
    (description : Str) : TaskStore :=
  store.map fun t =>
    if t.id = task_id then { t with description := description } else t

/-- Fresh primary key for an insertion (`lastrowid` of the auto-increment
column): one more than the largest id present. -/
def nextId (store : TaskStore) : Nat :=
  (store.map Task.id).foldr max 0 + 1

/-- The `create_task` (database.py lines 264-297): range-check the urgency, then
insert a fresh row and return its id. -/
def create_task (store : TaskStore) (description : Str) (urgency : Int)
    (status : Str) (alert_at : Option TimeVal) :
    Except Str (TaskStore × Nat) :=
  if 1 ≤ urgency ∧ urgency ≤ 5 then
    .ok (store ++ [⟨nextId store, description, urgency, status, alert_at⟩],
      nextId store)
  else .error urgencyRangeError

/-- The `AIAgent.add_task_notes` (agent.py lines 618-638): `ValueError` when the
task id does not resolve, otherwise `append_task_notes`. -/
def add_task_notes (store : TaskStore) (task_id : Nat) (notes : Str)
    (now : Str) : Except Str TaskStore :=
  if (get_task_by_id store task_id).isSome then
    .ok (append_task_notes store task_id notes now)
  else .error "Task not found".data

/-- The `AIAgent.update_task_priority` (agent.py lines 587-616): verify the task
exists, write the urgency, then append an explanatory note. -/
def update_task_priority (store : TaskStore) (task_id : Nat)
    (new_urgency : Int) (reason now : Str) : Except Str TaskStore :=
  match get_task_by_id store task_id with
  | none => .error "Task not found".data
  | some task =>
    match update_task_urgency store task_id new_urgency with
    | .error e => .error e
    | .ok store1 =>
      .ok (append_task_notes store1 task_id
        ("Urgency changed from ".data ++ intToStr task.urgency ++
          " to ".data ++ intToStr new_urgency ++ ". Reason: ".data ++
          reason) now)

/-- Two-digit field of a date/time format. -/
def digit2 : Str → Option (Nat × Str)
  | a :: b :: rest =>
    if a.isDigit && b.isDigit then
      some ((a.toNat - 48) * 10 + (b.toNat - 48), rest)
    else none
  | _ => none

/-- Four-digit field of a date/time format. -/
def digit4 (s : Str) : Option (Nat × Str) :=
  match digit2 s with
  | none => none
  | some (hi, rest) =>
    match digit2 rest with
    | none => none
    | some (lo, rest2) => some (hi * 100 + lo, rest2)

/-- Python's `datetime.strptime(s, "%Y-%m-%d %H:%M")` (stdlib), restricted
to zero-padded fields with calendar range checks; the source only reaches
this branch for absolute timestamps the model emits in exactly this form. -/
def strptimeYmdHm (s : Str) : Option TimeVal :=
  match digit4 s with
  | none => none
  | some (y, r1) =>
  match r1 with
  | '-' :: r2 =>
    match digit2 r2 with
    | none => none
    | some (mo, r3) =>
    match r3 with
    | '-' :: r4 =>
      match digit2 r4 with
      | none => none
      | some (d, r5) =>
      match r5 with
      | ' ' :: r6 =>
        match digit2 r6 with
        | none => none
        | some (h, r7) =>
        match r7 with
        | ':' :: r8 =>
          match digit2 r8 with
          | none => none
          | some (mi, r9) =>
            if r9 = [] ∧ 1 ≤ mo ∧ mo ≤ 12 ∧ 1 ≤ d ∧ d ≤ 31 ∧ h ≤ 23 ∧
                mi ≤ 59 then
              some (TimeVal.calendar y mo d h mi)
            else none
        | _ => none
      | _ => none
    | _ => none
  | _ => none

/-- Python's `datetime.fromisoformat` (stdlib), restricted to the
`YYYY-MM-DD[ T]HH:MM[:SS]` shapes with range checks (the seconds field is
accepted and dropped; no claim depends on it). -/
def fromisoformat (s : Str) : Option TimeVal :=
  match digit4 s with
  | none => none
  | some (y, r1) =>
  match r1 with
  | '-' :: r2 =>
    match digit2 r2 with
    | none => none
    | some (mo, r3) =>
    match r3 with
    | '-' :: r4 =>
      match digit2 r4 with
      | none => none
      | some (d, r5) =>
        if ¬(1 ≤ mo ∧ mo ≤ 12 ∧ 1 ≤ d ∧ d ≤ 31) then none
        else
          match r5 with
          | [] => some (TimeVal.calendar y mo d 0 0)
          | sep :: r6 =>
            if sep = ' ' ∨ sep = 'T' then
              match digit2 r6 with
              | none => none
              | some (h, r7) =>
              match r7 with
              | ':' :: r8 =>
                match digit2 r8 with
                | none => none
                | some (mi, r9) =>
                  if ¬(h ≤ 23 ∧ mi ≤ 59) then none
                  else
                    match r9 with
                    | [] => some (TimeVal.calendar y mo d h mi)
                    | ':' :: r10 =>
                      match digit2 r10 with
                      | none => none
                      | some (sec, r11) =>
                        if r11 = [] ∧ sec ≤ 59 then
                          some (TimeVal.calendar y mo d h mi)
                        else none
                    | _ => none
              | _ => none
            else none
    | _ => none
  | _ => none

/-- The `AIAgent._parse_reminder_time` (agent.py lines 1268-1282).  `now` is
`datetime.utcnow()` in epoch seconds; `timedelta(hours=h)` and
`timedelta(days=d)` are `3600 * h` and `86400 * d` seconds.  The bare
`except` maps every parse error to `None`. -/
def parse_reminder_time (now : Int) (time_str : Str) : Option TimeVal :=
  if time_str = "next_debrief".data then some TimeVal.nextDebrief
  else
    match time_str.getLast? with
    | some 'h' =>
      (pyIntOpt time_str.dropLast).map fun h => TimeVal.instant (now + h * 3600)
    | some 'd' =>
      (pyIntOpt time_str.dropLast).map fun d =>
        TimeVal.instant (now + d * 86400)
    | _ => strptimeYmdHm time_str

/-- The remind-branch normalisation of `_handle_action` (agent.py lines
1111-1116): `re.match(r'(\d+)_?([hd])(ours?|ays?)?', details)` rewrites the
details to `f"{value}{unit}"` when it matches (the optional spelled-out
suffix group never affects the result). -/
def normalize_time_details (s : Str) : Str :=
  match munch1 (fun c => c.isDigit) s with
  | none => s
  | some (digits, rest) =>
    match rest with
    | '_' :: u :: _ => if u = 'h' ∨ u = 'd' then digits ++ [u] else s
    | u :: _ => if u = 'h' ∨ u = 'd' then digits ++ [u] else s
    | [] => s

/-- Which reminder annotation the remind branch produces; the parameters it
interpolates are carried, the surrounding fixed text is in the source. -/
inductive RemindFeedback where
  | setAt (task_id : Nat) (t : TimeVal)
  | invalidFormat (task_id : Nat)
deriving Repr, DecidableEq

/-- The `remind` branch of `AIAgent._handle_action` (agent.py lines
1107-1131), for an action whose task id has been resolved: normalise the
time token, parse it, and on success write status `pending` together with
the alert time through `update_task_status`; on failure leave the store
untouched and produce the invalid-format annotation. -/
def handle_action_remind (store : TaskStore) (now : Int) (task_id : Nat)
    (details : Str) : TaskStore × RemindFeedback :=
  match parse_reminder_time now (normalize_time_details details) with
  | some reminder_time =>
    (update_task_status store task_id "pending".data (some reminder_time),
      RemindFeedback.setAt task_id reminder_time)
  | none => (store, RemindFeedback.invalidFormat task_id)

/-- The annotation of the `notes` branch (agent.py line 1142; the non-ASCII
characters are the literal ones found in the source file). -/
def addedNoteFeedback (task_id : Nat) : Str :=
  "\n[üìù Added note to Task #".data ++ natToStr task_id
    ++ "]".data

/-- The `notes` branch of `_handle_action` (agent.py lines 1139-1143):
append the payload via `add_task_notes` and annotate; when `add_task_notes`
raises, the catch-all handler returns without an annotation and without
touching the store. -/
def handle_action_notes (store : TaskStore) (task_id : Nat) (details : Str)
    (now : Str) : TaskStore × Option Str :=
  match add_task_notes store task_id details now with
  | .ok store1 => (store1, some (addedNoteFeedback task_id))
  | .error _ => (store, none)

/-! ### JSON payloads and the create_task dispatcher branch -/

/-- JSON values as produced by Python's `json.loads` (numbers restricted to
integers; no claim involves float payloads). -/
inductive JValue where
  | null
  | bool (b : Bool)
  | num (n : Int)
  | str (s : Str)
  | arr (elems : List JValue)
  | obj (fields : List (Str × JValue))

/-- The `dict.get(key, default)` on a decoded JSON object (`json.loads` yields
unique keys, so first-match lookup suffices). -/
def jGetD (fields : List (Str × JValue)) (key : Str) (dflt : JValue) :
    JValue :=
  match fields.find? (fun kv => kv.1 == key) with
  | some kv => kv.2
  | none => dflt

/-- The `dict.get(key)` on a decoded JSON object: `none` when absent. -/
def jGetOpt (fields : List (Str × JValue)) (key : Str) : Option JValue :=
  (fields.find? (fun kv => kv.1 == key)).map (fun kv => kv.2)

/-- Python truthiness of a JSON-decoded value. -/
def jTruthy : JValue → Bool
  | .null => false
  | .bool b => b
  | .num n => n != 0
  | .str s => !s.isEmpty
  | .arr l => !l.isEmpty
  | .obj f => !f.isEmpty

/-- The failure annotation of the create branch on malformed JSON
(agent.py line 1075; the non-ASCII characters are the literal ones in the
source file). -/
def failCreateInvalidFormat : Str :=
  "\n[‚ùå Failed to create task - invalid format]".data

/-- The failure annotation of the create branch on any other error
(agent.py line 1078). -/
def failCreateGeneric : Str :=
  "\n[‚ùå Failed to create task]".data

/-- The success annotation of the create branch (agent.py line 1070). -/
def createdTaskFeedback (task_id : Nat) (description : Str) : Str :=
  "\n[‚úì Created new task #".data ++ natToStr task_id ++
    ": ".data ++ description ++ "]".data

/-- Notes sub-step of the create branch (agent.py lines 1061, 1066-1068):
append the optional `notes` field of the payload to the freshly created
task when it is truthy. -/
def create_task_notes_step (store1 : TaskStore) (task_id : Nat)
    (description : Str) (fields : List (Str × JValue)) (now : Str) :
    TaskStore × Str :=
  match jGetOpt fields "notes".data with
  | some notesVal =>
    if jTruthy notesVal then
      match notesVal with
      | JValue.str notes =>
        match add_task_notes store1 task_id notes now with
        | .ok store2 => (store2, createdTaskFeedback task_id description)
        | .error _ => (store1, failCreateGeneric)
      | _ => (store1, failCreateGeneric)
    else (store1, createdTaskFeedback task_id description)
  | none => (store1, createdTaskFeedback task_id description)

/-- The `create_task` branch of `AIAgent._handle_action` (agent.py lines
1055-1078).  `jloads` abstracts Python's `json.loads`; `none` models a
`JSONDecodeError`, which is answered with the invalid-format annotation and
no store change.  A decoded payload that is not an object, or whose
description/urgency fields do not have the types the store functions
accept, raises inside the branch (`AttributeError`/`TypeError`/DB error)
and is caught by the generic `except`, again leaving the store unchanged.
Returns the resulting store and the annotation. -/
def handle_create_task (store : TaskStore) (details : Str)
    (jloads : Str → Option JValue) (now : Str) : TaskStore × Str :=
  match jloads details with
  | none => (store, failCreateInvalidFormat)
  | some (JValue.obj fields) =>
    match jGetOpt fields "description".data,
        jGetD fields "urgency".data (JValue.num 3) with
    | some (JValue.str description), JValue.num urgency =>
      match create_task store description urgency "pending".data none with
      | .ok (store1, task_id) =>
        create_task_notes_step store1 task_id description fields now
      | .error _ => (store, failCreateGeneric)
    | _, _ => (store, failCreateGeneric)
  | some _ => (store, failCreateGeneric)

/-- The modification dictionary produced by `_identify_task_modification`:
id, type, value and reason entries (value as a string, per the prompt
contract of agent.py lines 694-709). -/
structure Modification where
  task_id : Nat
  type : Str
  value : Str
  reason : Str
deriving Repr, DecidableEq

/-- Zero-padded two-digit field. -/
def pad2 (n : Nat) : Str := if n < 10 then '0' :: natToStr n else natToStr n

/-- Zero-padded four-digit field. -/
def pad4 (n : Nat) : Str :=
  if n < 10 then '0' :: '0' :: '0' :: natToStr n
  else if n < 100 then '0' :: '0' :: natToStr n
  else if n < 1000 then '0' :: natToStr n
  else natToStr n

/-- The `strftime('%Y-%m-%d %H:%M')` on a calendar value (only values produced
by `fromisoformat` reach this renderer in the embedded code). -/
def strftimeYmdHm : TimeVal → Str
  | .calendar y mo d h mi =>
    pad4 y ++ "-".data ++ pad2 mo ++ "-".data ++ pad2 d ++ " ".data ++
      pad2 h ++ ":".data ++ pad2 mi
  | .instant _ => []
  | .nextDebrief => []

/-- The `AIAgent._apply_task_modification` (agent.py lines 739-812): validate
the field triple (Python truthiness: a zero id, empty type or empty value
aborts), confirm the task exists, then apply the branch for the
modification type.  Every raise inside is caught by the enclosing handler,
so the embedding is total; `none` as second component means no response
(no modification applied). -/
def apply_task_modification (store : TaskStore) (m : Modification)
    (now : Str) : TaskStore × Option Str :=
  if m.task_id = 0 ∨ m.type = [] ∨ m.value = [] then (store, none)
  else
    match get_task_by_id store m.task_id with
    | none => (store, none)
    | some task =>
      if m.type = "urgency".data then
        match pyIntOpt m.value with
        | some urgency =>
          if 1 ≤ urgency ∧ urgency ≤ 5 then
            match update_task_priority store m.task_id urgency m.reason
                now with
            | .ok store1 =>
              (store1, some ("I've updated the task urgency to ".data ++
                intToStr urgency ++ ". ".data ++ m.reason))
            | .error _ => (store, none)
          else (store, none)
        | none => (store, none)
      else if m.type = "status".data then
        if m.value = "pending".data ∨ m.value = "completed".data ∨
            m.value = "half-completed".data then
          (update_task_status store m.task_id m.value none,
            some ("I've marked the task as ".data ++ m.value ++ ". ".data ++
              m.reason))
        else (store, none)
      else if m.type = "notes".data ∨ m.type = "description".data then
        if pyStrip m.value ≠ [] then
          match add_task_notes store m.task_id m.value now with
          | .ok store1 =>
            (store1, some ("I've added this information to the task: ".data
              ++ m.value))
          | .error _ => (store, none)
        else (store, none)
      else if m.type = "reminder".data then
        match fromisoformat m.value with
        | some alert_time =>
          (update_task_status store m.task_id task.status (some alert_time),
            some ("I've set a reminder for ".data ++
              strftimeYmdHm alert_time ++ ". ".data ++ m.reason))
        | none => (store, none)
      else (store, none)

/-! ### Urgency invariant (claim C9) -/

/-- Every task's urgency lies in the 1..5 range. -/
def StoreInv (store : TaskStore) : Prop :=
  ∀ t ∈ store, 1 ≤ t.urgency ∧ t.urgency ≤ 5

/-- Store states reachable from an empty table through the write operations
of the store layer and the agent operations built on them. -/
inductive Reachable : TaskStore → Prop where
  | empty : Reachable []
  | create {s s' : TaskStore} {d : Str} {u : Int} {st : Str}
      {al : Option TimeVal} {id : Nat} : Reachable s →
      create_task s d u st al = .ok (s', id) → Reachable s'
  | urgency {s s' : TaskStore} {id : Nat} {u : Int} : Reachable s →
      update_task_urgency s id u = .ok s' → Reachable s'
  | status {s : TaskStore} {id : Nat} {st : Str} {al : Option TimeVal} :
      Reachable s → Reachable (update_task_status s id st al)
  | notes {s : TaskStore} {id : Nat} {n now : Str} :
      Reachable s → Reachable (append_task_notes s id n now)
  | descr {s : TaskStore} {id : Nat} {d : Str} :
      Reachable s → Reachable (update_task_description s id d)
  | priority {s s' : TaskStore} {id : Nat} {u : Int} {r now : Str} :
      Reachable s → update_task_priority s id u r now = .ok s' →
      Reachable s'
  | modification {s : TaskStore} {m : Modification} {now : Str} :
      Reachable s → Reachable (apply_task_modification s m now).1
  | remind {s : TaskStore} {now : Int} {id : Nat} {details : Str} :
      Reachable s → Reachable (handle_action_remind s now id details).1
  | createAction {s : TaskStore} {details : Str}
      {jloads : Str → Option JValue} {now : Str} :
      Reachable s → Reachable (handle_create_task s details jloads now).1

/-! ### Directive extraction (`AIAgent._extract_actions`, agent.py lines
990-1046) and dispatch order -/

/-- An extracted action dictionary: `type`, optional `task_id`, `details`;
profile actions carry a `subtype` instead of a task id. -/
structure RawAction where
  type : Str
  task_id : Option Int
  details : Str
  subtype : Option Str
deriving Repr, DecidableEq

/-- The `re.findall` for one anchored pattern: try the matcher at every
position from the left and consume each match.  Fuel-driven so the
definition evaluates in the kernel; fuel `s.length` always suffices
because every match consumes at least one character. -/
def findallGo {α : Type} (m : Str → Option (α × Str)) :
    Nat → Str → List α
  | 0, _ => []
  | _ + 1, [] => []
  | fuel + 1, c :: cs =>
    match m (c :: cs) with
    | some (g, rest) => g :: findallGo m fuel rest
    | none => findallGo m fuel cs

/-- The `re.findall(pattern, s)`. -/
def findall {α : Type} (m : Str → Option (α × Str)) (s : Str) : List α :=
  findallGo m s.length s

/-- Conversion of a three-group match (the `len(match) == 3` branch of
`_extract_actions`, agent.py lines 1007-1015): `int(...)` is tried on the
middle group; on `ValueError` the task id stays unresolved and the details
are replaced by that group (the third group is discarded). -/
def actionOfTriple : Str × Str × Str → RawAction
  | (action_type, task_id_or_value, details) =>
    match pyIntOpt task_id_or_value with
    | some n => ⟨action_type, some n, details, none⟩
    | none => ⟨action_type, none, task_id_or_value, none⟩

/-- Conversion of a two-group match (the `len(match) == 2` branch,
agent.py lines 1016-1019). -/
def actionOfPair : Str × Str → RawAction
  | (action_type, details) => ⟨action_type, none, details, none⟩

/-- Conversion of a create_task match (single-group `findall` yields bare
strings; agent.py lines 1020-1024). -/
def actionOfCreate (details : Str) : RawAction :=
  ⟨"create_task".data, none, details, none⟩

/-- Conversion of a profile match (agent.py lines 1034-1044; the profile
dictionary has no `task_id` key). -/
def actionOfProfile : Str × Str → RawAction
  | (subtype, details) => ⟨"profile".data, none, details, some subtype⟩

/-- The `AIAgent._extract_actions`: one `re.findall` per pattern over the whole
response, in the fixed pattern order of the source, the match lists
concatenated in that order. -/
def extract_actions (response : Str) : List RawAction :=
  (findall matchP1 response).map actionOfTriple ++
    (findall matchP2 response).map actionOfTriple ++
    (findall matchP3 response).map actionOfPair ++
    (findall matchCreate response).map actionOfCreate ++
    (findall matchProfile response).map actionOfProfile

/-- Modelled from the spec ("directives are collected in arrival order"):
classify one position by the first directive shape that matches, in the
source's pattern order. -/
def tryAnyShape (s : Str) : Option (RawAction × Str) :=
  match matchP1 s with
  | some (g, rest) => some (actionOfTriple g, rest)
  | none =>
  match matchP2 s with
  | some (g, rest) => some (actionOfTriple g, rest)
  | none =>
  match matchP3 s with
  | some (g, rest) => some (actionOfPair g, rest)
  | none =>
  match matchCreate s with
  | some (g, rest) => some (actionOfCreate g, rest)
  | none =>
  match matchProfile s with
  | some (g, rest) => some (actionOfProfile g, rest)
  | none => none

/-- Modelled from the spec: the directives of a response in arrival order —
a single left-to-right scan collecting each directive occurrence where it
stands in the text. -/
def arrivalActions (s : Str) : List RawAction := findall tryAnyShape s

/-- No position of `s` matches the pattern `m`. -/
def noMatchIn {α : Type} (m : Str → Option (α × Str)) (s : Str) : Bool :=
  (List.range (s.length + 1)).all fun n => (m (s.drop n)).isNone

/-! ### Model router (`AIAgent.process_input`, agent.py lines 40-214) -/

/-- A reasoning backend as the router sees it: availability, the fragments
it yields, and whether it raises after yielding them.  A backend failing
mid-stream has yielded some prefix of its output; since `chunks` is
arbitrary, letting the failure occur after `chunks` loses no generality. -/
structure Backend where
  available : Bool
  chunks : List Str
  fails : Bool
deriving Repr, DecidableEq

/-- Is `needle` a prefix of `s`? -/
def strStartsWith (needle s : Str) : Bool := (expectLit needle s).isSome

/-- Python's `in` on strings: `needle` occurs somewhere in `hay`. -/
def containsSub (needle : Str) : Str → Bool
  | [] => needle.isEmpty
  | c :: cs => strStartsWith needle (c :: cs) || containsSub needle cs

/-- The `AIAgent._requires_deep_thinking` (agent.py lines 216-229): an
analysis-style keyword occurs in the lowercased input (`any` over a set is
order-independent, so it is written as a disjunction). -/
def requires_deep_thinking (input_text : Str) : Bool :=
  containsSub "analyze".data (input_text.map Char.toLower) ||
    containsSub "compare".data (input_text.map Char.toLower) ||
    containsSub "evaluate".data (input_text.map Char.toLower) ||
    containsSub "synthesize".data (input_text.map Char.toLower)

/-- The trailing profile-insight fragment (agent.py lines 171-172 and
193-195): yielded after the streamed response when an insight was
learned. -/
def insightTail (insight : Option Str) : List Str :=
  match insight with
  | some i =>
    ["\n\nBy the way, I noticed something about you: ".data ++ i]
  | none => []

/-- The streaming turn of `AIAgent.process_input` for a non-greeting input
without task context: the availability gate (line 62), model selection
(lines 150-153), primary streaming with every chunk yielded to the caller
as it arrives (lines 156-168), single fallback on a primary exception with
the fallback chunks again yielded as they arrive (lines 174-191), and the
optional insight tail.  `.ok` carries the ordered fragments the caller
received over a completed turn; `.error` is a turn-fatal raise (fragments
yielded before a fatal raise are not represented — no claim quantifies
over failed turns). -/
def process_input_turn (chatgpt o3_mini : Backend) (user_input : Str)
    (insight : Option Str) : Except Str (List Str) :=
  if chatgpt.available = false ∧ o3_mini.available = false then
    .error "No AI models are available.".data
  else
    if o3_mini.available && requires_deep_thinking user_input then
      if o3_mini.fails then
        if chatgpt.available then
          if chatgpt.fails then .error "both models failed".data
          else .ok (o3_mini.chunks ++ chatgpt.chunks ++ insightTail insight)
        else .error "primary failed and no fallback is available".data
      else .ok (o3_mini.chunks ++ insightTail insight)
    else
      if chatgpt.available = false then
        if o3_mini.available then
          if o3_mini.fails then .error "both models failed".data
          else .ok (o3_mini.chunks ++ insightTail insight)
        else .error "primary failed and no fallback is available".data
      else if chatgpt.fails then
        if o3_mini.available then
          if o3_mini.fails then .error "both models failed".data
          else .ok (chatgpt.chunks ++ o3_mini.chunks ++ insightTail insight)
        else .error "primary failed and no fallback is available".data
      else .ok (chatgpt.chunks ++ insightTail insight)

/-! ### Profile reconciler (`Agent/src/profile_manager.py`) -/

/-- The singleton `user_profiles` row: the raw-input journal and the JSON
string holding the structured profile (the timestamp columns are elided —
no claim involves them). -/
structure ProfileRecord where
  raw_input : Str
  structured_profile : Str
deriving Repr, DecidableEq

/-- Inner scan of the non-greedy group of
`re.search(r'```json\s*(\{.*?\})\s*```', ..., re.DOTALL)`: find the
earliest close brace whose tail — after optional whitespace — starts with a
closing fence, and return the whole brace-delimited group.  `acc` holds the
group so far, reversed. -/
def tbClose (acc : Str) : Str → Option Str
  | [] => none
  | c :: cs =>
    if c = '\x7d' ∧ strStartsWith "```".data (cs.dropWhile pyWs) then
      some (acc.reverse ++ [c])
    else tbClose (c :: acc) cs

/-- One attempt of the triple-backtick JSON search at the current position:
the `json` fence header, optional whitespace, then the shortest
brace-delimited group followed by optional whitespace and a closing
fence. -/
def tbTryAt (s : Str) : Option Str :=
  match expectLit "```json".data s with
  | none => none
  | some r1 =>
    match r1.dropWhile pyWs with
    | '\x7b' :: rest => tbClose ['\x7b'] rest
    | _ => none

/-- The `re.search(r'```json\s*(\{.*?\})\s*```', text, re.DOTALL)` (used at
profile_manager.py lines 103 and 169): the leftmost position at which the
whole pattern matches wins; `\s` is modelled by its ASCII part. -/
def tbSearch : Str → Option Str
  | [] => none
  | c :: cs =>
    match tbTryAt (c :: cs) with
    | some g => some g
    | none => tbSearch cs

/-- Lowercase hex digit. -/
def hexDigit (n : Nat) : Char :=
  if n < 10 then Char.ofNat (48 + n) else Char.ofNat (87 + n)

/-- The `\uXXXX` escape. -/
def uEscape (n : Nat) : Str :=
  '\\' :: 'u' :: [hexDigit (n / 4096 % 16), hexDigit (n / 256 % 16),
    hexDigit (n / 16 % 16), hexDigit (n % 16)]

/-- Character escaping of `json.dumps` under its default
`ensure_ascii=True`: the two mandatory escapes, the short control forms,
and `\uXXXX` for remaining control and non-ASCII characters (surrogate
pairs above the basic plane). -/
def jEscapeChar (c : Char) : Str :=
  if c = '"' then ['\\', '"']
  else if c = '\\' then ['\\', '\\']
  else if c = '\n' then ['\\', 'n']
  else if c = '\t' then ['\\', 't']
  else if c = '\r' then ['\\', 'r']
  else if c = '\x08' then ['\\', 'b']
  else if c = '\x0c' then ['\\', 'f']
  else if 32 ≤ c.toNat ∧ c.toNat ≤ 126 then [c]
  else if c.toNat ≤ 65535 then uEscape c.toNat
  else
    uEscape (55296 + (c.toNat - 65536) / 1024) ++
      uEscape (56320 + (c.toNat - 65536) % 1024)

/-- The `json.dumps` on a string. -/
def jdumpStr (s : Str) : Str :=
  '"' :: (s.map jEscapeChar).flatten ++ ['"']

mutual

/-- The `json.dumps` with its default separators `(", ", ": ")`. -/
def jdump : JValue → Str
  | .null => "null".data
  | .bool true => "true".data
  | .bool false => "false".data
  | .num n => intToStr n
  | .str s => jdumpStr s
  | .arr l => '[' :: jdumpList l ++ [']']
  | .obj f => '\x7b' :: jdumpFields f ++ ['\x7d']

/-- Array elements of `json.dumps`. -/
def jdumpList : List JValue → Str
  | [] => []
  | [v] => jdump v
  | v :: rest => jdump v ++ ", ".data ++ jdumpList rest

/-- Object entries of `json.dumps`. -/
def jdumpFields : List (Str × JValue) → Str
  | [] => []
  | [(k, v)] => jdumpStr k ++ ": ".data ++ jdump v
  | (k, v) :: rest =>
    jdumpStr k ++ ": ".data ++ jdump v ++ ", ".data ++ jdumpFields rest

end

/-- The `dict.update` for one key: overwrite in place when present, append
otherwise. -/
def jUpdateField : List (Str × JValue) → Str → JValue → List (Str × JValue)
  | [], k, v => [(k, v)]
  | (k0, v0) :: rest, k, v =>
    if k0 == k then (k0, v) :: rest else (k0, v0) :: jUpdateField rest k v

/-- The `_meta` bookkeeping of the success path (profile_manager.py lines
186-192): ensure a `_meta` entry exists, then update its three keys.
`none` models the raise when the profile's existing `_meta` value is not an
object (`.update` on a non-dict). -/
def setMetaOpt (profileFields : List (Str × JValue)) (now : Str)
    (is_direct_input : Bool) (confidence : JValue) :
    Option (List (Str × JValue)) :=
  let withMeta :=
    if (jGetOpt profileFields "_meta".data).isSome then profileFields
    else profileFields ++ [("_meta".data, JValue.obj [])]
  match jGetOpt withMeta "_meta".data with
  | some (JValue.obj metaFields) =>
    some (jUpdateField withMeta "_meta".data (JValue.obj
      (jUpdateField
        (jUpdateField
          (jUpdateField metaFields "last_updated".data (JValue.str now))
          "last_update_type".data
          (JValue.str (if is_direct_input then "direct_input".data
            else "conversation_insight".data)))
        "last_update_confidence".data confidence)))
  | _ => none

/-- The record created for a first-time profile (profile_manager.py lines
121-127): empty journal and a structured profile holding only the creation
timestamp. -/
def freshProfileRecord (now : Str) : ProfileRecord :=
  ⟨[], jdump (JValue.obj [("_meta".data,
    JValue.obj [("created_at".data, JValue.str now)])])⟩

/-- The `ProfileManager.process_input` (profile_manager.py lines 51-223).

Collaborators are explicit: `db` is the singleton profile row (or `none`),
`analysisResp`/`mergeResp` are the two model responses, `jloads` abstracts
`json.loads` (`none` = `JSONDecodeError`), and `now` stands for the
`datetime.utcnow().isoformat()` timestamps.  The result is the persisted
row after the call together with the returned `(profile, insight)` pair.
A SQLAlchemy session discards uncommitted work when closed, so every
return path before the final `db.commit()` — including the record that is
flushed but not committed for a first-time profile — leaves the persisted
row unchanged.  Every exception inside is caught (the inner handlers
return early; the enclosing handler rolls back and returns `({}, None)`),
so the embedding is total. -/
def profile_process_input (db : Option ProfileRecord) (input_text : Str)
    (is_direct_input : Bool) (analysisResp mergeResp : Str)
    (jloads : Str → Option JValue) (now : Str) :
    Option ProfileRecord × JValue × Option JValue :=
  match tbSearch analysisResp with
  | none => (db, JValue.obj [], none)
  | some grp =>
  match jloads grp with
  | none => (db, JValue.obj [], none)
  | some (JValue.obj analysisFields) =>
    if jTruthy (jGetD analysisFields "has_relevant_info".data
        (JValue.bool false)) = false then
      (db, JValue.obj [], none)
    else
      match jloads (db.getD (freshProfileRecord now)).structured_profile with
      | none => (db, JValue.obj [], none)
      | some current_profile =>
      match jGetOpt analysisFields "extracted_info".data,
          jGetOpt analysisFields "confidence".data with
      | some _, some confidence =>
        (match tbSearch mergeResp with
        | none => (db, current_profile, none)
        | some mgrp =>
        match jloads mgrp with
        | none => (db, current_profile, none)
        | some (JValue.obj mergeFields) =>
          match jGetOpt mergeFields "profile".data,
              jGetOpt mergeFields "insight".data with
          | some updated_profile, some insight =>
            (match updated_profile with
            | JValue.obj profileFields =>
              match setMetaOpt profileFields now is_direct_input
                  confidence with
              | some finalFields =>
                (some ⟨(db.getD (freshProfileRecord now)).raw_input ++
                    "\n\n--- ".data ++
                    (if is_direct_input then "Direct Input".data
                      else "Conversation Insight".data) ++
                    " (".data ++ now ++ ") ---\n".data ++ input_text,
                  jdump (JValue.obj finalFields)⟩,
                  JValue.obj finalFields, some insight)
              | none => (db, JValue.obj [], none)
            | _ => (db, JValue.obj [], none))
          | _, _ => (db, current_profile, none)
        | some _ => (db, JValue.obj [], none))
      | _, _ => (db, JValue.obj [], none)
  | some _ => (db, JValue.obj [], none)

/-- Profile row for the C8 counterexample: a stored profile with content. -/
def c8_record : ProfileRecord := ⟨[], "\x7b\"name\": \"Bob\"\x7d".data⟩

/-- The `json.loads` table for the strings the C8 counterexample touches,
agreeing with Python's parser on them. -/
def c8_jloads (s : Str) : Option JValue :=
  if s = c8_record.structured_profile then
    some (JValue.obj [("name".data, JValue.str "Bob".data)])
  else none

/-- The brace group of the C8 witness's extraction response. -/
def c8w_analysis_group : Str :=
  ("\x7b\"has_relevant_info\": true, " ++
    "\"extracted_info\": 1, \"confidence\": 1\x7d").data

/-- The `json.loads` table for the strings the C8 witness touches, agreeing
with Python's parser on them. -/
def c8w_jloads (s : Str) : Option JValue :=
  if s = c8w_analysis_group then
    some (JValue.obj
      [("has_relevant_info".data, JValue.bool true),
        ("extracted_info".data, JValue.num 1),
        ("confidence".data, JValue.num 1)])
  else if s = "\x7b\x7d".data then some (JValue.obj [])
  else none

/-! ### Theorems -/

theorem expectLit_suffix {lit s r : Str} (h : expectLit lit s = some r) :
    r <:+ s := by
  induction lit generalizing s with
  | nil =>
    simp only [expectLit, Option.some.injEq] at h
    exact h ▸ List.suffix_refl r
  | cons l ls ih =>
    cases s with
    | nil => simp [expectLit] at h
    | cons c cs =>
      simp only [expectLit] at h
      split at h
      · exact (ih h).trans (List.suffix_cons c cs)
      · exact absurd h (by simp)

theorem expectLit_length {lit s r : Str} (h : expectLit lit s = some r) :
    r.length + lit.length = s.length := by
  induction lit generalizing s with
  | nil =>
    simp only [expectLit, Option.some.injEq] at h
    simp [h]
  | cons l ls ih =>
    cases s with
    | nil => simp [expectLit] at h
    | cons c cs =>
      simp only [expectLit] at h
      split at h
      · have := ih h
        simp only [List.length_cons]
        omega
      · exact absurd h (by simp)

theorem munch_append (p : Char → Bool) (s : Str) :
    (munch p s).1 ++ (munch p s).2 = s := by
  induction s with
  | nil => simp [munch]
  | cons c cs ih =>
    simp only [munch]
    split
    · simpa using ih
    · simp

theorem munch_suffix (p : Char → Bool) (s : Str) : (munch p s).2 <:+ s :=
  ⟨(munch p s).1, munch_append p s⟩

theorem munch_length (p : Char → Bool) (s : Str) :
    (munch p s).2.length ≤ s.length := by
  have := congrArg List.length (munch_append p s)
  simp only [List.length_append] at this
  omega

theorem munch1_eq {p : Char → Bool} {s a r : Str}
    (h : munch1 p s = some (a, r)) : munch p s = (a, r) ∧ a ≠ [] := by
  unfold munch1 at h
  split at h
  · exact absurd h (by simp)
  · next a' r' hne heq =>
    obtain ⟨rfl, rfl⟩ : a' = a ∧ r' = r := by
      simpa [Prod.ext_iff] using h
    exact ⟨heq, hne⟩

theorem munch1_suffix {p : Char → Bool} {s a r : Str}
    (h : munch1 p s = some (a, r)) : r <:+ s := by
  obtain ⟨heq, -⟩ := munch1_eq h
  have := munch_suffix p s
  rwa [heq] at this

theorem munch1_length {p : Char → Bool} {s a r : Str}
    (h : munch1 p s = some (a, r)) : r.length < s.length := by
  obtain ⟨heq, hne⟩ := munch1_eq h
  have happ := munch_append p s
  rw [heq] at happ
  have := congrArg List.length happ
  simp only [List.length_append] at this
  have : a.length ≠ 0 := by simpa using hne
  omega

theorem matchP1_sound {s : Str} {g : Str × Str × Str} {r : Str}
    (h : matchP1 s = some (g, r)) : r <:+ s ∧ r.length < s.length := by
  unfold matchP1 at h
  split at h <;> try exact Option.noConfusion h
  next s1 h1 =>
  split at h <;> try exact Option.noConfusion h
  next kind s2 h2 =>
  split at h <;> try exact Option.noConfusion h
  next s3 h3 =>
  split at h <;> try exact Option.noConfusion h
  next digits s4 h4 =>
  split at h <;> try exact Option.noConfusion h
  next s5 h5 =>
  split at h
  next payload s6 h6 =>
  split at h <;> try exact Option.noConfusion h
  next s7 h7 =>
  obtain ⟨-, rfl⟩ : (g, r) = ((kind, digits, payload), s7) := by
    simpa [Prod.ext_iff] using h.symm
  have hs6 : s6 <:+ s5 := by
    have hm := munch_suffix notRB s5
    rw [h6] at hm
    exact hm
  have l6 : s6.length ≤ s5.length := by
    have hm := munch_length notRB s5
    rw [h6] at hm
    exact hm
  constructor
  · exact (((((expectLit_suffix h7).trans hs6).trans
      (expectLit_suffix h5)).trans
      (munch1_suffix h4)).trans (expectLit_suffix h3)).trans
      ((munch1_suffix h2).trans (expectLit_suffix h1))
  · have l1 := expectLit_length h1
    have l2 := munch1_length h2
    have l3 := expectLit_length h3
    have l4 := munch1_length h4
    have l5 := expectLit_length h5
    have l7 := expectLit_length h7
    simp only [List.length] at l1 l3 l5 l7
    omega

theorem matchP2_sound {s : Str} {g : Str × Str × Str} {r : Str}
    (h : matchP2 s = some (g, r)) : r <:+ s ∧ r.length < s.length := by
  unfold matchP2 at h
  split at h <;> try exact Option.noConfusion h
  next s1 h1 =>
  split at h <;> try exact Option.noConfusion h
  next kind s2 h2 =>
  split at h <;> try exact Option.noConfusion h
  next s3 h3 =>
  split at h <;> try exact Option.noConfusion h
  next field s4 h4 =>
  split at h <;> try exact Option.noConfusion h
  next s5 h5 =>
  split at h
  next payload s6 h6 =>
  split at h <;> try exact Option.noConfusion h
  next s7 h7 =>
  obtain ⟨-, rfl⟩ : (g, r) = ((kind, field, payload), s7) := by
    simpa [Prod.ext_iff] using h.symm
  have hs6 : s6 <:+ s5 := by
    have hm := munch_suffix notRB s5
    rw [h6] at hm
    exact hm
  have l6 : s6.length ≤ s5.length := by
    have hm := munch_length notRB s5
    rw [h6] at hm
    exact hm
  constructor
  · exact (((((expectLit_suffix h7).trans hs6).trans
      (expectLit_suffix h5)).trans
      (munch1_suffix h4)).trans (expectLit_suffix h3)).trans
      ((munch1_suffix h2).trans (expectLit_suffix h1))
  · have l1 := expectLit_length h1
    have l2 := munch1_length h2
    have l3 := expectLit_length h3
    have l4 := munch1_length h4
    have l5 := expectLit_length h5
    have l7 := expectLit_length h7
    simp only [List.length] at l1 l3 l5 l7
    omega

theorem matchP3_sound {s : Str} {g : Str × Str} {r : Str}
    (h : matchP3 s = some (g, r)) : r <:+ s ∧ r.length < s.length := by
  unfold matchP3 at h
  split at h <;> try exact Option.noConfusion h
  next s1 h1 =>
  split at h <;> try exact Option.noConfusion h
  next kind s2 h2 =>
  split at h <;> try exact Option.noConfusion h
  next s3 h3 =>
  split at h
  next payload s4 h4 =>
  split at h <;> try exact Option.noConfusion h
  next s5 h5 =>
  obtain ⟨-, rfl⟩ : (g, r) = ((kind, payload), s5) := by
    simpa [Prod.ext_iff] using h.symm
  have hs4 : s4 <:+ s3 := by
    have hm := munch_suffix notRB s3
    rw [h4] at hm
    exact hm
  have l4 : s4.length ≤ s3.length := by
    have hm := munch_length notRB s3
    rw [h4] at hm
    exact hm
  constructor
  · exact (((expectLit_suffix h5).trans hs4).trans (expectLit_suffix h3)).trans
      ((munch1_suffix h2).trans (expectLit_suffix h1))
  · have l1 := expectLit_length h1
    have l2 := munch1_length h2
    have l3 := expectLit_length h3
    have l5 := expectLit_length h5
    simp only [List.length] at l1 l3 l5
    omega

theorem matchCreate_sound {s : Str} {g : Str} {r : Str}
    (h : matchCreate s = some (g, r)) : r <:+ s ∧ r.length < s.length := by
  unfold matchCreate at h
  split at h <;> try exact Option.noConfusion h
  next s1 h1 =>
  split at h
  next payload s2 h2 =>
  split at h <;> try exact Option.noConfusion h
  next s3 h3 =>
  obtain ⟨-, rfl⟩ : (g, r) = (payload, s3) := by
    simpa [Prod.ext_iff] using h.symm
  have hs2 : s2 <:+ s1 := by
    have hm := munch_suffix notRB s1
    rw [h2] at hm
    exact hm
  have l2 : s2.length ≤ s1.length := by
    have hm := munch_length notRB s1
    rw [h2] at hm
    exact hm
  constructor
  · exact ((expectLit_suffix h3).trans hs2).trans (expectLit_suffix h1)
  · have l1 := expectLit_length h1
    have l3 := expectLit_length h3
    simp only [List.length] at l1 l3
    omega

theorem matchProfile_sound {s : Str} {g : Str × Str} {r : Str}
    (h : matchProfile s = some (g, r)) : r <:+ s ∧ r.length < s.length := by
  unfold matchProfile at h
  split at h <;> try exact Option.noConfusion h
  next s1 h1 =>
  split at h <;> try exact Option.noConfusion h
  next subtype s2 h2 =>
  split at h <;> try exact Option.noConfusion h
  next s3 h3 =>
  split at h
  next payload s4 h4 =>
  split at h <;> try exact Option.noConfusion h
  next s5 h5 =>
  obtain ⟨-, rfl⟩ : (g, r) = ((subtype, payload), s5) := by
    simpa [Prod.ext_iff] using h.symm
  have hs4 : s4 <:+ s3 := by
    have hm := munch_suffix notRB s3
    rw [h4] at hm
    exact hm
  have l4 : s4.length ≤ s3.length := by
    have hm := munch_length notRB s3
    rw [h4] at hm
    exact hm
  constructor
  · exact (((expectLit_suffix h5).trans hs4).trans (expectLit_suffix h3)).trans
      ((munch1_suffix h2).trans (expectLit_suffix h1))
  · have l1 := expectLit_length h1
    have l2 := munch1_length h2
    have l3 := expectLit_length h3
    have l5 := expectLit_length h5
    simp only [List.length] at l1 l3 l5
    omega

theorem matchAnyGrammar_length {s r : Str} (h : matchAnyGrammar s = some r) :
    r.length < s.length := by
  unfold matchAnyGrammar at h
  split at h
  · next m hm =>
    obtain ⟨g, rest⟩ := m
    cases h
    exact (matchP1_sound hm).2
  · split at h
    · next m hm =>
      obtain ⟨g, rest⟩ := m
      cases h
      exact (matchP2_sound hm).2
    · split at h
      · next m hm =>
        obtain ⟨g, rest⟩ := m
        cases h
        exact (matchP3_sound hm).2
      · split at h
        · next m hm =>
          obtain ⟨g, rest⟩ := m
          cases h
          exact (matchCreate_sound hm).2
        · split at h
          · next m hm =>
            obtain ⟨g, rest⟩ := m
            cases h
            exact (matchProfile_sound hm).2
          · exact Option.noConfusion h

theorem sizeSum_append_singleton (c : List Str) (t : Str) :
    sizeSum (c ++ [t]) = sizeSum c + taskSize t := by
  simp [sizeSum]

theorem chunkStep_inv {maxE maxT : Nat} (hE : 1 ≤ maxE) {st : ChunkState}
    (t : Str) (h : ChunkInv maxE maxT st) :
    ChunkInv maxE maxT (chunkStep maxE maxT st t) ∧
      flattenState (chunkStep maxE maxT st t) = flattenState st ++ [t] := by
  obtain ⟨hemit, hcur, hsize⟩ := h
  have hsingle : GoodBatch maxE maxT [t] := by
    constructor
    · simpa using hE
    · by_cases hbig : taskSize t ≤ maxT
      · exact Or.inl (by simpa [sizeSum] using hbig)
      · exact Or.inr ⟨t, rfl, by omega⟩
  by_cases hguard :
      maxE ≤ st.current_chunk.length ∨ maxT < st.current_size + taskSize t
  · by_cases hne : st.current_chunk = []
    · simp only [ChunkInv, flattenState, chunkStep, if_pos hguard, if_pos hne]
      exact ⟨⟨hemit, hsingle, by simp [sizeSum]⟩, by simp [hne]⟩
    · simp only [ChunkInv, flattenState, chunkStep, if_pos hguard, if_neg hne]
      refine ⟨⟨?_, hsingle, by simp [sizeSum]⟩, by simp⟩
      intro c hc
      simp only [List.mem_append, List.mem_singleton] at hc
      rcases hc with hc | rfl
      · exact hemit c hc
      · exact hcur
  · simp only [ChunkInv, flattenState, chunkStep, if_neg hguard]
    push_neg at hguard
    obtain ⟨hlen, hsz⟩ := hguard
    refine ⟨⟨hemit, ⟨?_, Or.inl ?_⟩, ?_⟩, by simp⟩
    · simp only [List.length_append, List.length_singleton]
      omega
    · rw [sizeSum_append_singleton]
      omega
    · rw [sizeSum_append_singleton, hsize]

theorem chunkFold_inv {maxE maxT : Nat} (hE : 1 ≤ maxE) (tasks : List Str)
    (st : ChunkState) (h : ChunkInv maxE maxT st) :
    ChunkInv maxE maxT (tasks.foldl (chunkStep maxE maxT) st) ∧
      flattenState (tasks.foldl (chunkStep maxE maxT) st) =
        flattenState st ++ tasks := by
  induction tasks generalizing st with
  | nil => simpa using h
  | cons t ts ih =>
    obtain ⟨h1, h2⟩ := chunkStep_inv hE t h
    obtain ⟨h3, h4⟩ := ih (chunkStep maxE maxT st t) h1
    refine ⟨by simpa using h3, ?_⟩
    simp only [List.foldl_cons]
    rw [h4, h2]
    simp

/-- The batcher claim: every batch respects both bounds (a single oversized
record excepted), the batches concatenate back to the ordered input, and
empty input yields zero batches. -/
theorem chunk_tasks_correct (maxE maxT : Nat) (hE : 1 ≤ maxE)
    (tasks : List Str) :
    (∀ c ∈ chunk_tasks maxE maxT tasks, GoodBatch maxE maxT c) ∧
      (chunk_tasks maxE maxT tasks).flatten = tasks ∧
      (tasks = [] → chunk_tasks maxE maxT tasks = []) := by
  have hinit : ChunkInv maxE maxT ⟨[], [], 0⟩ := by
    exact ⟨by simp, ⟨by simp, Or.inl (by simp [sizeSum])⟩, by simp [sizeSum]⟩
  obtain ⟨⟨hemit, hcur, -⟩, hflat⟩ := chunkFold_inv hE tasks ⟨[], [], 0⟩ hinit
  unfold flattenState at hflat
  simp only [List.flatten_nil, List.nil_append] at hflat
  have hmain : ∀ c ∈ chunk_tasks maxE maxT tasks, GoodBatch maxE maxT c := by
    intro c hc
    unfold chunk_tasks closeChunks at hc
    split at hc
    · exact hemit c hc
    · simp only [List.mem_append, List.mem_singleton] at hc
      rcases hc with hc | rfl
      · exact hemit c hc
      · exact hcur
  refine ⟨hmain, ?_, ?_⟩
  · unfold chunk_tasks closeChunks
    split
    · next hnil =>
      rw [hnil, List.append_nil] at hflat
      exact hflat
    · simpa using hflat
  · intro h0
    subst h0
    simp [chunk_tasks, closeChunks]

theorem storeInv_map {store : TaskStore} {f : Task → Task}
    (hf : ∀ t, (f t).urgency = t.urgency) (h : StoreInv store) :
    StoreInv (store.map f) := by
  intro t ht
  obtain ⟨u, hu, rfl⟩ := List.mem_map.mp ht
  rw [hf u]
  exact h u hu

theorem update_task_status_inv {s : TaskStore} {id : Nat} {st : Str}
    {al : Option TimeVal} (h : StoreInv s) :
    StoreInv (update_task_status s id st al) := by
  refine storeInv_map (fun t => ?_) h
  by_cases hid : t.id = id <;> simp [hid]

theorem append_task_notes_inv {s : TaskStore} {id : Nat} {n now : Str}
    (h : StoreInv s) : StoreInv (append_task_notes s id n now) := by
  refine storeInv_map (fun t => ?_) h
  by_cases hid : t.id = id <;> simp [hid]

theorem update_task_description_inv {s : TaskStore} {id : Nat} {d : Str}
    (h : StoreInv s) : StoreInv (update_task_description s id d) := by
  refine storeInv_map (fun t => ?_) h
  by_cases hid : t.id = id <;> simp [hid]

theorem update_task_urgency_inv {s s' : TaskStore} {id : Nat} {u : Int}
    (h : update_task_urgency s id u = .ok s') (hinv : StoreInv s) :
    StoreInv s' := by
  unfold update_task_urgency at h
  split at h
  · next hrange =>
    cases h
    intro t ht
    obtain ⟨v, hv, rfl⟩ := List.mem_map.mp ht
    by_cases hid : v.id = id
    · simpa [hid] using hrange
    · simpa [hid] using hinv v hv
  · exact Except.noConfusion h

theorem create_task_inv {s s' : TaskStore} {d : Str} {u : Int} {st : Str}
    {al : Option TimeVal} {id : Nat}
    (h : create_task s d u st al = .ok (s', id)) (hinv : StoreInv s) :
    StoreInv s' := by
  unfold create_task at h
  split at h
  · next hrange =>
    obtain ⟨rfl, -⟩ : s ++ [⟨nextId s, d, u, st, al⟩] = s' ∧ nextId s = id := by
      simpa [Prod.ext_iff] using h
    intro t ht
    rcases List.mem_append.mp ht with ht | ht
    · exact hinv t ht
    · obtain rfl : t = ⟨nextId s, d, u, st, al⟩ := by simpa using ht
      exact hrange
  · exact Except.noConfusion h

theorem add_task_notes_inv {s s' : TaskStore} {id : Nat} {n now : Str}
    (h : add_task_notes s id n now = .ok s') (hinv : StoreInv s) :
    StoreInv s' := by
  unfold add_task_notes at h
  split at h
  · cases h
    exact append_task_notes_inv hinv
  · exact Except.noConfusion h

theorem update_task_priority_inv {s s' : TaskStore} {id : Nat} {u : Int}
    {r now : Str} (h : update_task_priority s id u r now = .ok s')
    (hinv : StoreInv s) : StoreInv s' := by
  unfold update_task_priority at h
  split at h
  · exact Except.noConfusion h
  · split at h
    · exact Except.noConfusion h
    · next store1 hstore1 =>
      cases h
      exact append_task_notes_inv (update_task_urgency_inv hstore1 hinv)

theorem apply_task_modification_inv {s : TaskStore} {m : Modification}
    {now : Str} (hinv : StoreInv s) :
    StoreInv (apply_task_modification s m now).1 := by
  unfold apply_task_modification
  split
  · exact hinv
  · split
    · exact hinv
    · split
      · split
        · split
          · split
            · next store1 h1 => exact update_task_priority_inv h1 hinv
            · exact hinv
          · exact hinv
        · exact hinv
      · split
        · split
          · exact update_task_status_inv hinv
          · exact hinv
        · split
          · split
            · split
              · next store1 h1 => exact add_task_notes_inv h1 hinv
              · exact hinv
            · exact hinv
          · split
            · split
              · exact update_task_status_inv hinv
              · exact hinv
            · exact hinv

theorem handle_action_remind_inv {s : TaskStore} {now : Int} {id : Nat}
    {details : Str} (hinv : StoreInv s) :
    StoreInv (handle_action_remind s now id details).1 := by
  unfold handle_action_remind
  split
  · exact update_task_status_inv hinv
  · exact hinv

theorem create_task_notes_step_inv {store1 : TaskStore} {task_id : Nat}
    {description : Str} {fields : List (Str × JValue)} {now : Str}
    (hinv : StoreInv store1) :
    StoreInv (create_task_notes_step store1 task_id description fields
      now).1 := by
  unfold create_task_notes_step
  repeat' split
  all_goals try exact hinv
  all_goals (rename_i store2 h2; exact add_task_notes_inv h2 hinv)

theorem handle_create_task_inv {s : TaskStore} {details : Str}
    {jloads : Str → Option JValue} {now : Str} (hinv : StoreInv s) :
    StoreInv (handle_create_task s details jloads now).1 := by
  unfold handle_create_task
  split
  · exact hinv
  · split
    · split
      · next store1 tid h1 =>
        exact create_task_notes_step_inv (create_task_inv h1 hinv)
      · exact hinv
    · exact hinv
  · exact hinv

/-- C3: the notes/description dispatch path is strictly additive.  For a
task with description `D`, dispatching a notes directive with payload `P`
stores `D ++ timestamp-marker ++ P` as the new description — `D` is kept as
a prefix in full, the task's other fields are unchanged, and every other
task is untouched. -/
theorem notes_appends_description (store : TaskStore) (task_id : Nat)
    (P now : Str) (t : Task) (ht : t ∈ store) (hid : t.id = task_id) :
    { t with description := t.description ++ updateMarker now ++ P } ∈
        (handle_action_notes store task_id P now).1 ∧
      (handle_action_notes store task_id P now).2 =
        some (addedNoteFeedback task_id) ∧
      ∀ u ∈ store, u.id ≠ task_id →
        u ∈ (handle_action_notes store task_id P now).1 := by
  have hsome : (get_task_by_id store task_id).isSome = true := by
    unfold get_task_by_id
    rw [List.find?_isSome]
    exact ⟨t, ht, by simp [hid]⟩
  simp only [handle_action_notes, add_task_notes, hsome, if_true]
  refine ⟨?_, trivial, ?_⟩
  · exact List.mem_map.mpr ⟨t, ht, by simp [hid]⟩
  · intro u hu hne
    exact List.mem_map.mpr ⟨u, hu, by simp [hne]⟩

/-- Witness for C3 at a concrete store. -/
theorem notes_appends_description_witness :
    ({ id := 1
       description := "D".data ++ updateMarker "T".data ++ "note".data
       urgency := 3
       status := "pending".data
       alertAt := none } : Task) ∈
      (handle_action_notes [⟨1, "D".data, 3, "pending".data, none⟩] 1
        "note".data "T".data).1 :=
  (notes_appends_description [⟨1, "D".data, 3, "pending".data, none⟩] 1
    "note".data "T".data ⟨1, "D".data, 3, "pending".data, none⟩
    (by decide) rfl).1

/-- C10: a dispatched remind directive with a resolved target task and a
valid time token sets the target's status to `pending` regardless of its
prior status, stores the parsed alert time, changes no other field of the
task, touches no other task, and reports the parsed time in the
annotation. -/
theorem remind_sets_pending (store : TaskStore) (now : Int) (task_id : Nat)
    (details : Str) (r : TimeVal)
    (hp : parse_reminder_time now (normalize_time_details details) = some r)
    (t : Task) (ht : t ∈ store) (hid : t.id = task_id) :
    { t with status := "pending".data, alertAt := some r } ∈
        (handle_action_remind store now task_id details).1 ∧
      (handle_action_remind store now task_id details).2 =
        RemindFeedback.setAt task_id r ∧
      ∀ u ∈ store, u.id ≠ task_id →
        u ∈ (handle_action_remind store now task_id details).1 := by
  simp only [handle_action_remind, hp, update_task_status]
  refine ⟨?_, trivial, ?_⟩
  · exact List.mem_map.mpr ⟨t, ht, by simp [hid]⟩
  · intro u hu hne
    exact List.mem_map.mpr ⟨u, hu, by simp [hne]⟩

/-- Witness for C10: a completed task becomes pending again with the alert
set two hours ahead. -/
theorem remind_sets_pending_witness :
    ({ id := 7
       description := "d".data
       urgency := 3
       status := "pending".data
       alertAt := some (TimeVal.instant 7200) } : Task) ∈
      (handle_action_remind [⟨7, "d".data, 3, "completed".data, none⟩] 0 7
        "2h".data).1 :=
  (remind_sets_pending [⟨7, "d".data, 3, "completed".data, none⟩] 0 7
    "2h".data (TimeVal.instant 7200) (by decide)
    ⟨7, "d".data, 3, "completed".data, none⟩ (by decide) rfl).1

/-- C7: a create_task directive whose payload is not valid JSON yields the
visible invalid-format annotation, leaves the task store unchanged, and
(being a total function) raises nothing past the dispatcher. -/
theorem create_task_malformed (store : TaskStore) (details : Str)
    (jloads : Str → Option JValue) (now : Str)
    (h : jloads details = none) :
    handle_create_task store details jloads now =
      (store, failCreateInvalidFormat) := by
  unfold handle_create_task
  rw [h]

/-- Witness for C7 at the spec's example payload. -/
theorem create_task_malformed_witness :
    handle_create_task [] "\x7bnot json\x7d".data (fun _ => none)
        "T".data = ([], failCreateInvalidFormat) :=
  create_task_malformed [] "\x7bnot json\x7d".data (fun _ => none)
    "T".data rfl

/-- C9: task creation and both urgency-writing paths reject urgencies
outside 1..5 (`create_task` and `update_task_urgency` raise, the
modification branch leaves the store unchanged), and consequently every
store state reachable through the modelled operations keeps every task's
urgency in the range. -/
theorem urgency_invariant :
    (∀ (s : TaskStore) (d : Str) (u : Int) (st : Str)
        (al : Option TimeVal), ¬(1 ≤ u ∧ u ≤ 5) →
        create_task s d u st al = .error urgencyRangeError) ∧
      (∀ (s : TaskStore) (id : Nat) (u : Int), ¬(1 ≤ u ∧ u ≤ 5) →
        update_task_urgency s id u = .error urgencyRangeError) ∧
      (∀ (s : TaskStore) (m : Modification) (now : Str) (u : Int),
        m.type = "urgency".data → pyIntOpt m.value = some u →
        ¬(1 ≤ u ∧ u ≤ 5) → (apply_task_modification s m now).1 = s) ∧
      ∀ s : TaskStore, Reachable s → StoreInv s := by
  refine ⟨?_, ?_, ?_, ?_⟩
  · intro s d u st al hu
    unfold create_task
    rw [if_neg hu]
  · intro s id u hu
    unfold update_task_urgency
    rw [if_neg hu]
  · intro s m now u hty hval hu
    unfold apply_task_modification
    split
    · rfl
    · split
      · rfl
      · simp [hty, hval, hu]
  · intro s hs
    induction hs with
    | empty => exact fun t ht => absurd ht (List.not_mem_nil t)
    | create _ h ih => exact create_task_inv h ih
    | urgency _ h ih => exact update_task_urgency_inv h ih
    | status _ ih => exact update_task_status_inv ih
    | notes _ ih => exact append_task_notes_inv ih
    | descr _ ih => exact update_task_description_inv ih
    | priority _ h ih => exact update_task_priority_inv h ih
    | modification _ ih => exact apply_task_modification_inv ih
    | remind _ ih => exact handle_action_remind_inv ih
    | createAction _ ih => exact handle_create_task_inv ih

/-- Witness for C9: creating with urgency 9 is rejected; the modification
branch with urgency "9" leaves a concrete store unchanged. -/
theorem urgency_invariant_witness :
    create_task [] "d".data 9 "pending".data none =
        .error urgencyRangeError ∧
      (apply_task_modification [⟨1, "d".data, 3, "pending".data, none⟩]
        ⟨1, "urgency".data, "9".data, "r".data⟩ "T".data).1 =
        [⟨1, "d".data, 3, "pending".data, none⟩] :=
  ⟨urgency_invariant.1 [] "d".data 9 "pending".data none (by decide),
    urgency_invariant.2.2.1 [⟨1, "d".data, 3, "pending".data, none⟩]
      ⟨1, "urgency".data, "9".data, "r".data⟩ "T".data 9 rfl (by decide)
      (by decide)⟩

/-- Witness for C5 at the default config bounds. -/
theorem chunk_tasks_correct_witness :
    1 ≤ MAX_EMAILS ∧
      (chunk_tasks MAX_EMAILS MAX_TOKENS
        ["aaaa".data, "bbbb".data]).flatten =
        ["aaaa".data, "bbbb".data] :=
  ⟨by decide,
    (chunk_tasks_correct MAX_EMAILS MAX_TOKENS (by decide)
      ["aaaa".data, "bbbb".data]).2.1⟩

/-- C1 (code-bug evidence): at the single-fragment stream `"[x]"` the loop
yields the candidate text `"[x]"` once, and — because the source never
clears `buffer` after a handled candidate, contrary to its own comment
`process it and clear buffer` — the end-of-stream flush emits it a second
time.  The visible text is `"[x][x]"`, while the input minus its
Directive-Grammar matches is `"[x]"`. -/
theorem stream_visible_duplicates :
    streamVisible ["[x]".data] = "[x][x]".data ∧
      removeDirectivesSpec "[x]".data = "[x]".data ∧
      streamVisible ["[x]".data] ≠ removeDirectivesSpec "[x]".data :=
  ⟨by decide, by decide, by decide⟩

/-- C2 (counterexample): with the single fragment
`"[ACTION:complete:3:done]x"` the residual end-of-stream buffer is that
whole text — it begins with `[` and is *not* a complete grammar-matching
directive — yet the end-of-stream handling emits nothing for it, because
`_is_action_directive` accepts any directive-*prefixed* text
(`re.match` does not require consuming the whole buffer). -/
theorem residual_not_emitted_counterexample :
    (runStream ["[ACTION:complete:3:done]x".data]).buffer =
        "[ACTION:complete:3:done]x".data ∧
      is_complete_directive
          (runStream ["[ACTION:complete:3:done]x".data]).buffer = false ∧
      flushVisible (runStream ["[ACTION:complete:3:done]x".data]) = [] :=
  ⟨by decide, by decide, by decide⟩

/-- C2 (amended): the end-of-stream handling emits the residual buffered
text verbatim exactly when no directive pattern matches a prefix of it;
residual text that begins with a complete directive (followed by anything)
is absorbed into the response instead.  An unterminated bracket such as
`"[ACTION:rem"` has no prefix match, so it is always flushed. -/
theorem residual_flush_iff_no_prefix_match (chunks : List Str) :
    (is_action_directive (runStream chunks).buffer = false →
      streamVisible chunks =
        (runStream chunks).visible.flatten ++ (runStream chunks).buffer) ∧
      (is_action_directive (runStream chunks).buffer = true →
        streamVisible chunks = (runStream chunks).visible.flatten) := by
  constructor
  · intro h
    unfold streamVisible flushVisible
    by_cases hb : (runStream chunks).buffer = []
    · simp [hb]
    · rw [if_pos ⟨hb, h⟩]
  · intro h
    unfold streamVisible flushVisible
    rw [if_neg (by simp [h])]
    simp

/-- Witness for the amended C2: the stream ending mid-bracket flushes the
residual text verbatim. -/
theorem residual_flush_iff_no_prefix_match_witness :
    is_action_directive (runStream ["[ACTION:rem".data]).buffer = false ∧
      streamVisible ["[ACTION:rem".data] =
        (runStream ["[ACTION:rem".data]).visible.flatten ++
          (runStream ["[ACTION:rem".data]).buffer :=
  ⟨by decide,
    (residual_flush_iff_no_prefix_match ["[ACTION:rem".data]).1 (by decide)⟩

theorem noMatchIn_suffix {α : Type} {m : Str → Option (α × Str)} {s : Str}
    (h : noMatchIn m s = true) : ∀ t, t <:+ s → m t = none := by
  intro t ht
  obtain ⟨u, hu⟩ := ht
  have hdrop : t = s.drop u.length := by
    rw [← hu, List.drop_left]
  have hlen : u.length ≤ s.length := by
    rw [← hu]
    simp
  unfold noMatchIn at h
  rw [List.all_eq_true] at h
  have := h u.length (by rw [List.mem_range]; omega)
  rw [hdrop]
  simpa [Option.isNone_iff_eq_none] using this

theorem findallGo_nil {α : Type} {m : Str → Option (α × Str)} {s : Str}
    (fuel : Nat) (h : ∀ t : Str, t <:+ s → m t = none) :
    findallGo m fuel s = [] := by
  induction fuel generalizing s with
  | zero => rfl
  | succ n ih =>
    cases s with
    | nil => rfl
    | cons c cs =>
      simp only [findallGo, h (c :: cs) (List.suffix_refl _)]
      exact ih (fun t ht => h t (ht.trans (List.suffix_cons c cs)))

theorem arrival_as_p1 {s : Str} (fuel : Nat)
    (h : ∀ t : Str, t <:+ s → matchP2 t = none ∧ matchP3 t = none ∧
      matchCreate t = none ∧ matchProfile t = none) :
    findallGo tryAnyShape fuel s =
      (findallGo matchP1 fuel s).map actionOfTriple := by
  induction fuel generalizing s with
  | zero => rfl
  | succ n ih =>
    cases s with
    | nil => rfl
    | cons c cs =>
      have hrefl := h (c :: cs) (List.suffix_refl _)
      cases hm : matchP1 (c :: cs) with
      | some gr =>
        obtain ⟨g, rest⟩ := gr
        have htry : tryAnyShape (c :: cs) = some (actionOfTriple g, rest) := by
          unfold tryAnyShape
          rw [hm]
        simp only [findallGo, htry, hm, List.map_cons]
        have hsuffix : rest <:+ (c :: cs) := (matchP1_sound hm).1
        exact congrArg (actionOfTriple g :: ·)
          (ih (fun t ht => h t (ht.trans hsuffix)))
      | none =>
        have htry : tryAnyShape (c :: cs) = none := by
          unfold tryAnyShape
          rw [hm, hrefl.1, hrefl.2.1, hrefl.2.2.1, hrefl.2.2.2]
        simp only [findallGo, htry, hm]
        exact ih (fun t ht => h t (ht.trans (List.suffix_cons c cs)))

/-- C6 (counterexample): in the response
`"[ACTION:remind:task_id:next_debrief][ACTION:complete:3:done]"` the remind
directive arrives first, but `_extract_actions` scans the numeric-id
pattern over the whole response before the `task_id` patterns, so the
complete action is dispatched first — extraction order is not arrival
order. -/
theorem extract_actions_reorders :
    extract_actions
        "[ACTION:remind:task_id:next_debrief][ACTION:complete:3:done]".data =
      [⟨"complete".data, some 3, "done".data, none⟩,
        ⟨"remind".data, none, "next_debrief".data, none⟩] ∧
      arrivalActions
        "[ACTION:remind:task_id:next_debrief][ACTION:complete:3:done]".data =
      [⟨"remind".data, none, "next_debrief".data, none⟩,
        ⟨"complete".data, some 3, "done".data, none⟩] ∧
      extract_actions
        "[ACTION:remind:task_id:next_debrief][ACTION:complete:3:done]".data ≠
      arrivalActions
        "[ACTION:remind:task_id:next_debrief][ACTION:complete:3:done]".data :=
  ⟨by decide, by decide, by decide⟩

/-- C6 (amended): the dispatcher processes directives grouped by pattern
shape, in the source's fixed pattern order, preserving arrival order only
within each shape; in particular, when every directive of the response has
the numeric-id shape (none of the other four patterns matches anywhere),
the dispatch order coincides exactly with arrival order. -/
theorem extract_actions_single_shape (s : Str)
    (h2 : noMatchIn matchP2 s = true) (h3 : noMatchIn matchP3 s = true)
    (h4 : noMatchIn matchCreate s = true)
    (hp : noMatchIn matchProfile s = true) :
    extract_actions s = arrivalActions s := by
  have hsuff : ∀ t : Str, t <:+ s → matchP2 t = none ∧ matchP3 t = none ∧
      matchCreate t = none ∧ matchProfile t = none := fun t ht =>
    ⟨noMatchIn_suffix h2 t ht, noMatchIn_suffix h3 t ht,
      noMatchIn_suffix h4 t ht, noMatchIn_suffix hp t ht⟩
  have e2 : findall matchP2 s = [] :=
    findallGo_nil s.length (fun t ht => (hsuff t ht).1)
  have e3 : findall matchP3 s = [] :=
    findallGo_nil s.length (fun t ht => (hsuff t ht).2.1)
  have e4 : findall matchCreate s = [] :=
    findallGo_nil s.length (fun t ht => (hsuff t ht).2.2.1)
  have ep : findall matchProfile s = [] :=
    findallGo_nil s.length (fun t ht => (hsuff t ht).2.2.2)
  unfold extract_actions arrivalActions
  rw [e2, e3, e4, ep]
  unfold findall
  rw [arrival_as_p1 s.length hsuff]
  simp

/-- Witness for the amended C6: two numeric-id directives are dispatched in
arrival order. -/
theorem extract_actions_single_shape_witness :
    extract_actions "[ACTION:complete:3:a][ACTION:help:4:b]".data =
      arrivalActions "[ACTION:complete:3:a][ACTION:help:4:b]".data :=
  extract_actions_single_shape "[ACTION:complete:3:a][ACTION:help:4:b]".data
    (by decide) (by decide) (by decide) (by decide)

/-- C4 (counterexample): ChatGPT (the selected primary) yields `"Hel"` and
then raises; O3-mini is available and sound.  The turn completes, but the
caller sees `["Hel", "full"]` — the partial primary output was already
yielded before the fallback decision, so the visible response is
truncated-then-restarted, not the secondary output alone. -/
theorem router_partial_output_counterexample :
    process_input_turn ⟨true, ["Hel".data], true⟩
        ⟨true, ["full".data], false⟩ "hi".data none =
      .ok ["Hel".data, "full".data] ∧
      process_input_turn ⟨true, ["Hel".data], true⟩
        ⟨true, ["full".data], false⟩ "hi".data none ≠
      .ok ["full".data] :=
  ⟨rfl, by
    rw [show process_input_turn ⟨true, ["Hel".data], true⟩
      ⟨true, ["full".data], false⟩ "hi".data none =
      .ok ["Hel".data, "full".data] from rfl]
    simp⟩

/-- C4 (amended): when the selected primary backend raises during streaming
and the other backend is available and sound, the turn still completes
using the secondary — but the caller's visible fragments are the chunks the
primary yielded before failing followed by the secondary's full output
(fallback is decided only after the primary fails, not before visible text
is emitted). -/
theorem router_fallback_completes (chatgpt o3_mini : Backend)
    (user_input : Str) (insight : Option Str) :
    ((o3_mini.available && requires_deep_thinking user_input) = true →
      o3_mini.fails = true → chatgpt.available = true →
      chatgpt.fails = false →
      process_input_turn chatgpt o3_mini user_input insight =
        .ok (o3_mini.chunks ++ chatgpt.chunks ++ insightTail insight)) ∧
      ((o3_mini.available && requires_deep_thinking user_input) = false →
        chatgpt.available = true → chatgpt.fails = true →
        o3_mini.available = true → o3_mini.fails = false →
        process_input_turn chatgpt o3_mini user_input insight =
          .ok (chatgpt.chunks ++ o3_mini.chunks ++ insightTail insight)) := by
  constructor
  · intro huse hfail hav hnofail
    obtain ⟨ho3, hdeep⟩ :
        o3_mini.available = true ∧
          requires_deep_thinking user_input = true := by
      simpa using huse
    simp [process_input_turn, ho3, hdeep, hfail, hav, hnofail]
  · intro huse hav hfail ho3 hnofail
    have hdeep : requires_deep_thinking user_input = false := by
      simpa [ho3] using huse
    simp [process_input_turn, hdeep, hav, hfail, ho3, hnofail]

/-- Witness for the amended C4. -/
theorem router_fallback_completes_witness :
    process_input_turn ⟨true, ["Hel".data], true⟩
        ⟨true, ["full".data], false⟩ "hi".data none =
      .ok (["Hel".data] ++ ["full".data] ++ insightTail none) :=
  (router_fallback_completes ⟨true, ["Hel".data], true⟩
    ⟨true, ["full".data], false⟩ "hi".data none).2 (by decide) rfl rfl rfl
    rfl

/-- C8 (counterexample): with a stored profile `{"name": "Bob"}` and a
non-JSON extraction response, the reconciler returns the *empty* dict —
not the current profile — together with no insight (the persisted row is
indeed unchanged). -/
theorem reconciler_returns_empty_counterexample :
    profile_process_input (some c8_record) "hi".data false "oops".data
        [] c8_jloads "T".data =
      (some c8_record, JValue.obj [], none) ∧
      c8_jloads c8_record.structured_profile =
        some (JValue.obj [("name".data, JValue.str "Bob".data)]) ∧
      (JValue.obj [] : JValue) ≠
        JValue.obj [("name".data, JValue.str "Bob".data)] :=
  ⟨rfl, rfl, by simp⟩

/-- C8 (amended): on an extraction-response parse failure the reconciler
returns an empty profile dict and no insight; on a merge-response parse
failure it returns the current profile unchanged and no insight; in both
cases the persisted profile row is unmodified, and the reconciler raises
nothing (the embedding is a total function because the source catches
every exception). -/
theorem reconciler_parse_failure (db : Option ProfileRecord)
    (input_text : Str) (is_direct : Bool) (analysisResp mergeResp : Str)
    (jloads : Str → Option JValue) (now : Str) :
    ((tbSearch analysisResp = none ∨
        (∃ g, tbSearch analysisResp = some g ∧ jloads g = none)) →
      profile_process_input db input_text is_direct analysisResp mergeResp
          jloads now =
        (db, JValue.obj [], none)) ∧
      (∀ (grp : Str) (afs : List (Str × JValue))
        (current_profile : JValue),
        tbSearch analysisResp = some grp →
        jloads grp = some (JValue.obj afs) →
        jTruthy (jGetD afs "has_relevant_info".data (JValue.bool false)) =
          true →
        jloads (db.getD (freshProfileRecord now)).structured_profile =
          some current_profile →
        (jGetOpt afs "extracted_info".data).isSome = true →
        (jGetOpt afs "confidence".data).isSome = true →
        (tbSearch mergeResp = none ∨
          (∃ g, tbSearch mergeResp = some g ∧ jloads g = none)) →
        profile_process_input db input_text is_direct analysisResp
            mergeResp jloads now =
          (db, current_profile, none)) := by
  constructor
  · rintro (h | ⟨g, hg, hjl⟩)
    · simp [profile_process_input, h]
    · simp [profile_process_input, hg, hjl]
  · intro grp afs current_profile h1 h2 h3 h4 h5 h6 h7
    obtain ⟨ei, hei⟩ := Option.isSome_iff_exists.mp h5
    obtain ⟨conf, hconf⟩ := Option.isSome_iff_exists.mp h6
    rcases h7 with hm | ⟨g, hg, hjl⟩
    · simp [profile_process_input, h1, h2, h3, h4, hei, hconf, hm]
    · simp [profile_process_input, h1, h2, h3, h4, hei, hconf, hg, hjl]

/-- Witness for the amended C8: a well-formed extraction response followed
by a malformed merge response returns the current profile unchanged with
no insight. -/
theorem reconciler_parse_failure_witness :
    profile_process_input (some ⟨[], "\x7b\x7d".data⟩) "hi".data false
        ("```json".data ++ c8w_analysis_group ++ "```".data) "oops".data
        c8w_jloads "T".data =
      (some ⟨[], "\x7b\x7d".data⟩, JValue.obj [], none) :=
  (reconciler_parse_failure (some ⟨[], "\x7b\x7d".data⟩) "hi".data false
      ("```json".data ++ c8w_analysis_group ++ "```".data) "oops".data
      c8w_jloads "T".data).2 c8w_analysis_group
    [("has_relevant_info".data, JValue.bool true),
      ("extracted_info".data, JValue.num 1),
      ("confidence".data, JValue.num 1)]
    (JValue.obj []) (by decide) rfl rfl rfl rfl rfl (Or.inl (by decide))

end Orchestration
